import Mathlib

/-!
Shallow embedding of the NYC parking-citation cleaning pipeline
(`src/data_cleaner.py`, class `ParkingDataCleaner`, plus the state-code
helper `clean_state_field` of `dashboard.py`).

Python strings are modelled as `List Char` (with `String` wrappers at the
row level); pandas missing cells as `none`; the pandas DataFrame as a list
of row structures plus a flag recording whether the optional
`violation_time` column exists.  Library primitives (`int(...)`,
`str.strip`, `str.zfill`, `pd.to_numeric`, `pd.to_datetime` on ISO dates)
are re-implemented executably below, each next to a comment naming the
Python primitive it models.
-/

namespace NYCParking

/-- Whitespace recognised by Python `str.strip()` (common cases). -/
def isSpaceChar (c : Char) : Bool :=
  c = ' ' || c = '\t' || c = '\n' || c = '\r'

/-- Python `str.lstrip()` on a char list. -/
def stripLeft (l : List Char) : List Char :=
  l.dropWhile isSpaceChar

/-- Python `str.strip()` on a char list. -/
def pyStrip (l : List Char) : List Char :=
  (stripLeft (stripLeft l.reverse).reverse)

/-- Python `str.upper()` on a char list (ASCII, as in this data). -/
def pyUpper (l : List Char) : List Char :=
  l.map Char.toUpper

/-- Decimal digit character. -/
def digitChar (d : Nat) : Char := Char.ofNat (48 + d)

/-- Value of a decimal digit character. -/
def digitVal (c : Char) : Nat := c.toNat - 48

/-- Accumulate a digit list into a natural number. -/
def digitsToNat (l : List Char) : Nat :=
  l.foldl (fun a c => a * 10 + digitVal c) 0

/-- Nonempty all-digit strings parsed as a natural number
(core of Python `int(...)` after sign handling). -/
def pyIntNat (l : List Char) : Option Nat :=
  if l ≠ [] ∧ l.all Char.isDigit then some (digitsToNat l) else none

/-- Python `int(str)`: surrounding whitespace tolerated, optional sign,
then decimal digits; anything else raises (modelled as `none`). -/
def pyInt (l : List Char) : Option Int :=
  match pyStrip l with
  | [] => none
  | c :: rest =>
    if c = '-' then (pyIntNat rest).map (fun n => -(n : Int))
    else if c = '+' then (pyIntNat rest).map (fun n => (n : Int))
    else (pyIntNat (c :: rest)).map (fun n => (n : Int))

/-- Python `str.split(sep)` for a single-character separator. -/
def splitOnChar (sep : Char) : List Char → List (List Char)
  | [] => [[]]
  | c :: rest =>
    if c = sep then
      [] :: splitOnChar sep rest
    else
      match splitOnChar sep rest with
      | [] => [[c]]
      | x :: xs => (c :: x) :: xs

/-- Python `str.zfill(n)`: left-pad with `'0'` to length `n`. -/
def zfill (n : Nat) (l : List Char) : List Char :=
  List.replicate (n - l.length) '0' ++ l

/-- Python `f"{i:02d}"`: decimal rendering padded to width 2
(a sign counts toward the width, as in Python). -/
def format02 (i : Int) : List Char :=
  if i < 0 then '-' :: Nat.toDigits 10 i.natAbs
  else zfill 2 (Nat.toDigits 10 i.toNat)

/-- `data_cleaner.parse_time`, step 1: trailing-meridiem detection.
`time_str[-1] in ['A','P','a','p']` (an empty string raises IndexError,
caught by the surrounding `except`). Returns `(meridiem, time_digits)`. -/
def splitMeridiem (l : List Char) : Option (Option Char × List Char) :=
  match l.getLast? with
  | none => none
  | some last =>
    if last = 'A' || last = 'P' || last = 'a' || last = 'p' then
      some (some last.toUpper, l.dropLast)
    else
      some (none, l)

/-- `data_cleaner.parse_time`, step 2: extract `(hours, minutes)` from the
digit portion.  Colon present: split on `':'`, `int(parts[0])`, and
`int(parts[1])` when there is a second part else `0`.  No colon: zero-pad
to 4 and read positions `[:2]` and `[2:4]`. -/
def readHoursMinutes (time_digits : List Char) : Option (Int × Int) :=
  if (':' ∈ time_digits) then
    match splitOnChar ':' time_digits with
    | [] => none
    | p0 :: rest => do
      let h ← pyInt p0
      let m ← match rest with
              | [] => some (0 : Int)
              | p1 :: _ => pyInt p1
      some (h, m)
  else
    let td := zfill 4 time_digits
    do
      let h ← pyInt (td.take 2)
      let m ← pyInt ((td.drop 2).take 2)
      some (h, m)

/-- `data_cleaner.parse_time`, step 3: 12h→24h meridiem adjustment:
`P` with hour ≠ 12 adds 12; `A` with hour = 12 gives 0. -/
def adjustMeridiem (meridiem : Option Char) (hours : Int) : Int :=
  if meridiem = some 'P' ∧ hours ≠ 12 then hours + 12
  else if meridiem = some 'A' ∧ hours = 12 then 0
  else hours

/-- `data_cleaner.parse_time` on a char list: strip, detect meridiem,
read hours/minutes, adjust, and format `f"{hours:02d}:{minutes:02d}"`.
Any failure (the Python bare `except`) yields `none`. -/
def parseTimeCore (l : List Char) : Option (List Char) := do
  let s := pyStrip l
  let (meridiem, time_digits) ← splitMeridiem s
  let (hours, minutes) ← readHoursMinutes time_digits
  let hours := adjustMeridiem meridiem hours
  some (format02 hours ++ ':' :: format02 minutes)

/-- `data_cleaner.parse_time` at the cell level: `pd.isnull` guard, then
the string parse.  Result is the canonical `"HH:MM"` string or `none`. -/
def parse_time (cell : Option String) : Option String :=
  match cell with
  | none => none
  | some s => (parseTimeCore s.toList).map String.mk

/-- `df['violation_time_parsed'].str.split(':').str[0].astype('Int64')`:
the text before the first colon of the parsed time, as an integer
(missing when the parsed time is missing). -/
def violation_hour_of (parsed : Option String) : Option Int :=
  match parsed with
  | none => none
  | some s =>
    match splitOnChar ':' s.toList with
    | [] => none
    | p0 :: _ => pyInt p0

/-- `data_cleaner.categorize_time`: bucket an hour into a day period;
a missing hour is `'Unknown'`. -/
def categorize_time (hour : Option Int) : String :=
  match hour with
  | none => "Unknown"
  | some h =>
    if 5 ≤ h ∧ h < 12 then "Morning"
    else if 12 ≤ h ∧ h < 17 then "Afternoon"
    else if 17 ≤ h ∧ h < 21 then "Evening"
    else "Night"

/-- `pd.to_numeric(..., errors='coerce')` on a text cell, modelled for
plain decimal numerals: optional surrounding whitespace and sign, digits
with an optional fractional part (scientific notation etc. is outside the
model).  Unparseable text coerces to missing. -/
def pyToNumericCore (l : List Char) : Option Rat :=
  let l := pyStrip l
  let signAndRest : Rat × List Char :=
    match l with
    | '-' :: rest => (-1, rest)
    | '+' :: rest => (1, rest)
    | rest => (1, rest)
  let sign := signAndRest.1
  let rest := signAndRest.2
  match splitOnChar '.' rest with
  | [ip] =>
    if ip ≠ [] ∧ ip.all Char.isDigit then some (sign * digitsToNat ip) else none
  | [ip, fp] =>
    if (ip ≠ [] ∨ fp ≠ []) ∧ ip.all Char.isDigit ∧ fp.all Char.isDigit then
      some (sign * ((digitsToNat ip : Rat) + (digitsToNat fp : Rat) / ((10 : Rat) ^ fp.length)))
    else none
  | _ => none

/-- `pd.to_numeric(..., errors='coerce')` at the cell level. -/
def pyToNumeric (cell : Option String) : Option Rat :=
  match cell with
  | none => none
  | some s => pyToNumericCore s.toList

/-- A calendar date as produced by the date parser. -/
structure IsoDate where
  year : Nat
  month : Nat
  day : Nat
  deriving Repr, DecidableEq

/-- `pd.to_datetime(..., errors='coerce')` modelled on ISO `YYYY-MM-DD`
strings (the format this dataset's `issue_date` arrives in): three
dash-separated digit groups with month in 1..12 and day in 1..31;
anything else — including a missing cell — coerces to `NaT` (`none`). -/
def parseIsoDate (cell : Option String) : Option IsoDate :=
  match cell with
  | none => none
  | some s =>
    match splitOnChar '-' (pyStrip s.toList) with
    | [ys, ms, ds] =>
      if ys ≠ [] ∧ ys.all Char.isDigit ∧ ms ≠ [] ∧ ms.all Char.isDigit ∧
         ds ≠ [] ∧ ds.all Char.isDigit then
        let m := digitsToNat ms
        let d := digitsToNat ds
        if 1 ≤ m ∧ m ≤ 12 ∧ 1 ≤ d ∧ d ≤ 31 then
          some ⟨digitsToNat ys, m, d⟩
        else none
      else none
    | _ => none

/-- One DataFrame row.  Raw cells are optional strings (`none` = NaN);
columns created by the cleaning stages start at their pre-stage defaults.
Columns no claim touches (`year`, `month`, `day_of_week`, `precinct`,
`license_type`, `is_weekend`, `quarter`, …) are not embedded. -/
structure Row where
  idx : Nat := 0
  summons_number : Option String := none
  issue_date_raw : Option String := none
  issue_date : Option IsoDate := none
  violation_time : Option String := none
  violation_time_parsed : Option String := none
  violation_hour : Option Int := none
  time_of_day : String := ""
  state : Option String := none
  is_ny_plate : Bool := false
  county : Option String := none
  plate : Option String := none
  plate_masked : Option String := none
  fine_amount_raw : Option String := none
  fine_amount : Option Rat := none
  fine_amount_flag : String := ""
  reduction_amount_raw : Option String := none
  reduction_amount : Rat := 0
  net_fine : Option Rat := none
  is_business_hours : Bool := false
  deriving Repr, DecidableEq

/-- One entry of `ParkingDataCleaner.removed_rows`. -/
structure RemovedRow where
  index : Nat
  summons_number : Option String
  reason : String
  step : String
  deriving Repr, DecidableEq

/-- `ParkingDataCleaner.cleaning_report` (the counters the claims use). -/
structure CleaningReport where
  initial_records : Nat := 0
  final_records : Nat := 0
  duplicates_removed : Nat := 0
  invalid_dates_removed : Nat := 0
  deriving Repr, DecidableEq

/-- The cleaner instance: working table (`raw_df`), finalized table
(`clean_df`), removal log and report.  `hasViolationTime` records whether
the optional `violation_time` column exists in the loaded table (pandas
raises `KeyError` on access to an absent column). -/
structure Cleaner where
  rows : List Row := []
  clean_rows : List Row := []
  hasViolationTime : Bool := true
  removed_rows : List RemovedRow := []
  report : CleaningReport := {}
  deriving Repr, DecidableEq

/-- `ParkingDataCleaner.load_data`: read the table, record
`initial_records`.  Row indices are assigned positionally. -/
def load_data (input : List Row) (hasVT : Bool) : Cleaner :=
  { rows := input.enum.map (fun p => { p.2 with idx := p.1 }),
    clean_rows := [],
    hasViolationTime := hasVT,
    removed_rows := [],
    report := { initial_records := input.length } }

/-- `ParkingDataCleaner.clean_dates`: coerce `issue_date`, drop and count
rows whose date coerces to `NaT`, then parse `violation_time` into
`violation_time_parsed` / `violation_hour` / `time_of_day`.  Accessing the
`violation_time` column when it is absent raises `KeyError`, which escapes
the method (only `parse_time`'s body is inside a `try`). -/
def clean_dates (c : Cleaner) : Except String Cleaner :=
  let rows := c.rows.map (fun r => { r with issue_date := parseIsoDate r.issue_date_raw })
  let invalid_count := (rows.filter (fun r => r.issue_date.isNone)).length
  let report :=
    if invalid_count > 0 then { c.report with invalid_dates_removed := invalid_count }
    else c.report
  let rows :=
    if invalid_count > 0 then rows.filter (fun r => !r.issue_date.isNone) else rows
  if c.hasViolationTime then
    let rows := rows.map (fun r =>
      let parsed := parse_time r.violation_time
      let hr := violation_hour_of parsed
      { r with violation_time_parsed := parsed,
               violation_hour := hr,
               time_of_day := categorize_time hr })
    .ok { c with rows := rows, report := report }
  else
    .error "KeyError: violation_time"

/-- `borough_mapping` of `clean_categorical_fields`. -/
def borough_mapping : List (String × String) :=
  [("MAN", "MANHATTAN"), ("MH", "MANHATTAN"), ("NY", "MANHATTAN"),
   ("BX", "BRONX"),
   ("BK", "BROOKLYN"), ("K", "BROOKLYN"),
   ("Q", "QUEENS"), ("QN", "QUEENS"),
   ("R", "STATEN ISLAND"), ("ST", "STATEN ISLAND")]

/-- Exact-value lookup in an association table (`Series.replace` /
Python dict access). -/
def lookupMap (m : List (String × String)) (v : String) : Option String :=
  (m.find? (fun p => p.1 == v)).map (fun p => p.2)

/-- `df['state'].str.upper().str.strip()` on one cell. -/
def pipelineStateValue (cell : Option String) : Option String :=
  cell.map (fun s => String.mk (pyStrip (pyUpper s.toList)))

/-- `county` normalization: `.str.upper().str.strip()` then
`.replace(borough_mapping)` (unmapped values pass through). -/
def pipelineCountyValue (cell : Option String) : Option String :=
  cell.map (fun s =>
    let v := String.mk (pyStrip (pyUpper s.toList))
    (lookupMap borough_mapping v).getD v)

/-- `ParkingDataCleaner.clean_categorical_fields`: standardize `state`
(upper/strip only — the 10-entry `valid_states` list there is used only
for diagnostic printing), derive `is_ny_plate`, and map `county` through
the borough table.  Precinct handling creates no claim-relevant state. -/
def clean_categorical_fields (c : Cleaner) : Cleaner :=
  { c with rows := c.rows.map (fun r =>
      let st := pipelineStateValue r.state
      { r with state := st,
               is_ny_plate := st == some "NY",
               county := pipelineCountyValue r.county }) }

/-- `fine_amount_flag` assignment: start `'normal'`, then the
`zero` / `negative` / `high` masks (mutually exclusive; a missing amount
satisfies none of the comparisons, as NaN comparisons are false). -/
def fine_flag (f : Option Rat) : String :=
  match f with
  | none => "normal"
  | some v =>
    if v = 0 then "zero"
    else if v < 0 then "negative"
    else if v > 500 then "high"
    else "normal"

/-- `ParkingDataCleaner.clean_numeric_fields`: coerce `fine_amount`
(missing on failure), flag it, coerce `reduction_amount` with
`fillna(0)`, and compute `net_fine` (missing when `fine_amount` is). -/
def clean_numeric_fields (c : Cleaner) : Cleaner :=
  { c with rows := c.rows.map (fun r =>
      let fine := pyToNumeric r.fine_amount_raw
      let red := (pyToNumeric r.reduction_amount_raw).getD 0
      { r with fine_amount := fine,
               fine_amount_flag := fine_flag fine,
               reduction_amount := red,
               net_fine := fine.map (fun f => f - red) }) }

/-- `df.duplicated(subset=['summons_number'], keep='first')` filtering:
keep the first row bearing each `summons_number` (pandas treats NaN keys
as equal to each other). -/
def dedupFirst (seen : List (Option String)) : List Row → List Row
  | [] => []
  | r :: rest =>
    if r.summons_number ∈ seen then dedupFirst seen rest
    else r :: dedupFirst (r.summons_number :: seen) rest

/-- `ParkingDataCleaner.remove_duplicates`: drop later duplicates by
`summons_number` and record the count (only the count — no per-row log
entries are appended here). -/
def remove_duplicates (c : Cleaner) : Cleaner :=
  let kept := dedupFirst [] c.rows
  let duplicates := c.rows.length - kept.length
  let report :=
    if duplicates > 0 then { c.report with duplicates_removed := duplicates }
    else c.report
  { c with rows := kept, report := report }

/-- `f"***{str(x)[-3:]}"`: the fixed mask prefix and the last three
characters (Python slice semantics: a shorter plate contributes all of
its characters). -/
def plate_mask_value (cell : Option String) : Option String :=
  cell.map (fun x => "***" ++ String.mk (x.toList.drop (x.toList.length - 3)))

/-- `ParkingDataCleaner.create_derived_features`: `is_business_hours`
(missing hour counts as false) and `plate_masked`.  Nothing is removed
and no column — in particular not `plate` — is dropped. -/
def create_derived_features (c : Cleaner) : Cleaner :=
  { c with rows := c.rows.map (fun r =>
      { r with is_business_hours :=
                 match r.violation_hour with
                 | some h => decide (9 ≤ h ∧ h ≤ 17)
                 | none => false,
               plate_masked := plate_mask_value r.plate }) }

/-- The three critical columns are all present in a row. -/
def criticalsOk (r : Row) : Bool :=
  r.summons_number.isSome && r.issue_date.isSome && r.county.isSome

/-- Names of the critical columns missing from a row
(the list interpolated into the removal reason). -/
def missing_criticals (r : Row) : List String :=
  (if r.summons_number.isNone then ["summons_number"] else []) ++
  (if r.issue_date.isNone then ["issue_date"] else []) ++
  (if r.county.isNone then ["county"] else [])

/-- `ParkingDataCleaner.finalize_cleaning`: log every row with a missing
critical field, drop those rows (`dropna(subset=critical_columns)`), set
`clean_df` and `final_records`. -/
def finalize_cleaning (c : Cleaner) : Cleaner :=
  let dropped := c.rows.filter (fun r => !criticalsOk r)
  let log := dropped.map (fun r =>
    { index := r.idx,
      summons_number := r.summons_number,
      reason := "Missing critical field(s): " ++
        String.intercalate ", " (missing_criticals r),
      step := "finalize_cleaning" : RemovedRow })
  let kept := c.rows.filter criticalsOk
  { c with clean_rows := kept,
           removed_rows := c.removed_rows ++ log,
           report := { c.report with final_records := kept.length } }

/-- `ParkingDataCleaner.run_full_pipeline` (post-load): the quality
assessment is read-only on a copy and is skipped; then the cleaning
stages run in order.  The result is the cleaner whose `clean_rows` is
the finalized table that `save_cleaned_data` persists column-for-column. -/
def run_full_pipeline (input : List Row) (hasVT : Bool) : Except String Cleaner := do
  let c := load_data input hasVT
  let c ← clean_dates c
  let c := clean_categorical_fields c
  let c := clean_numeric_fields c
  let c := remove_duplicates c
  let c := create_derived_features c
  .ok (finalize_cleaning c)

/-! ### `dashboard.clean_state_field` (the state-code resolution helper) -/

/-- One left-to-right pass of Python `str.replace(sub, '')`: remove every
(non-overlapping) occurrence of `sub`.  Fuel-structural so the kernel can
evaluate it; `fuel = length` suffices since each step consumes a char. -/
def pyReplaceAux (sub : List Char) : Nat → List Char → List Char
  | _, [] => []
  | 0, l => l
  | fuel + 1, c :: rest =>
    if sub.isPrefixOf (c :: rest) then
      pyReplaceAux sub fuel (List.drop (sub.length - 1) rest)
    else
      c :: pyReplaceAux sub fuel rest

/-- Python `str.replace(sub, '')` for nonempty `sub`. -/
def pyReplace (sub : List Char) (l : List Char) : List Char :=
  pyReplaceAux sub l.length l

/-- Python `str.isdigit()` (ASCII digits): nonempty and all digits. -/
def pyIsDigit (l : List Char) : Bool :=
  !l.isEmpty && l.all Char.isDigit

/-- `valid_states` of `dashboard.clean_state_field`: the 50 states, DC,
and 5 territories. -/
def dash_valid_states : List String :=
  ["AL", "AK", "AZ", "AR", "CA", "CO", "CT", "DE", "FL", "GA",
   "HI", "ID", "IL", "IN", "IA", "KS", "KY", "LA", "ME", "MD",
   "MA", "MI", "MN", "MS", "MO", "MT", "NE", "NV", "NH", "NJ",
   "NM", "NY", "NC", "ND", "OH", "OK", "OR", "PA", "RI", "SC",
   "SD", "TN", "TX", "UT", "VT", "VA", "WA", "WV", "WI", "WY",
   "DC", "PR", "VI", "GU", "AS", "MP"]

/-- `state_map` of `dashboard.clean_state_field`: known typo and
abbreviation variants. -/
def dash_state_map : List (String × String) :=
  [("N.Y", "NY"), ("N.J", "NJ"), ("PENN", "PA"), ("PENNA", "PA"),
   ("MASS", "MA"), ("CONN", "CT"), ("FLA", "FL"), ("CALIF", "CA"),
   ("N Y", "NY"), ("N J", "NJ"), ("P A", "PA")]

/-- The cascade of `dashboard.clean_state_field.clean_state` applied to
the already normalized (stripped, uppercased, prefix-stripped) value:
numeric / too long / empty → `UNKNOWN`; valid-set membership; typo
table; for 3-character values, retry with the first two characters;
otherwise `UNKNOWN`. -/
def clean_state_cascade (val : List Char) : String :=
  if pyIsDigit val = true ∨ val.length > 3 ∨ val.length = 0 then "UNKNOWN"
  else if dash_valid_states.contains (String.mk val) then String.mk val
  else
    match lookupMap dash_state_map (String.mk val) with
    | some m => m
    | none =>
      if val.length = 3 then
        if dash_valid_states.contains (String.mk (val.take 2)) then
          String.mk (val.take 2)
        else "UNKNOWN"
      else "UNKNOWN"

/-- The normalization `clean_state` performs before its cascade:
`str(val).strip().upper()` then `.replace('US-','').replace('USA-','')`. -/
def dashNormalize (s : String) : List Char :=
  pyReplace "USA-".toList (pyReplace "US-".toList (pyUpper (pyStrip s.toList)))

/-- `dashboard.clean_state_field.clean_state` on one cell. -/
def clean_state (cell : Option String) : String :=
  match cell with
  | none => "UNKNOWN"
  | some s => clean_state_cascade (dashNormalize s)

/-- Written from the claim's wording, not from the code: the resolution
order the claim asserts for a normalized state value — purely numeric,
empty, or longer than 3 characters maps to `UNKNOWN`; otherwise
membership in the closed valid-state set; if not a member, the
typo/abbreviation table; if still unresolved and the value has length 3,
membership retried with its first two characters; otherwise `UNKNOWN`. -/
def state_resolution_order (val : List Char) : String :=
  if pyIsDigit val = true ∨ val.length = 0 ∨ val.length > 3 then "UNKNOWN"
  else if dash_valid_states.contains (String.mk val) then String.mk val
  else
    match lookupMap dash_state_map (String.mk val) with
    | some m => m
    | none =>
      if val.length = 3 ∧ dash_valid_states.contains (String.mk (val.take 2)) then
        String.mk (val.take 2)
      else "UNKNOWN"

/-! ### Concrete inputs used by witnesses and counterexamples -/

/-- A fully well-formed citation row. -/
def exGood : Row :=
  { summons_number := some "1", issue_date_raw := some "2024-01-05",
    violation_time := some "0230P", state := some "n.y", county := some "man",
    plate := some "ABC1234", fine_amount_raw := some "75" }

/-- A duplicate of `exGood` (same `summons_number`), differing in fine. -/
def exDup : Row := { exGood with fine_amount_raw := some "999" }

/-- A row whose `issue_date` cannot be parsed. -/
def exBadDate : Row :=
  { summons_number := some "2", issue_date_raw := some "not-a-date",
    violation_time := some "10:45A", county := some "BK",
    fine_amount_raw := some "-20" }

/-- A row missing the critical `county` field, with an unparseable fine. -/
def exNoCounty : Row :=
  { summons_number := some "3", issue_date_raw := some "2024-01-06",
    fine_amount_raw := some "abc" }

/-- A row at the finalize stage with all critical fields present. -/
def exFinalGood : Row :=
  { summons_number := some "1", issue_date := some ⟨2024, 1, 5⟩,
    county := some "MANHATTAN" }

/-- A row at the finalize stage with a null `county`. -/
def exFinalBad : Row :=
  { summons_number := some "3", issue_date := some ⟨2024, 1, 6⟩ }

/-- A two-row working table entering the finalize stage. -/
def exFinalCleaner : Cleaner := { rows := [exFinalGood, exFinalBad] }

/-- The cleaner a successful full run produces (defaulted on failure);
used to state concrete consequences of run-level theorems. -/
def runOutput (input : List Row) : Cleaner :=
  ((run_full_pipeline input true).toOption).getD {}

/-- A three-row working table with one duplicated `summons_number`. -/
def exDupCleaner : Cleaner := { rows := [exGood, exDup, exBadDate] }

/-- A one-row working table whose state value is purely numeric. -/
def exNumericState : Cleaner :=
  { rows := [{ summons_number := some "9", state := some "99" }] }

/-- Two-digit zero-padded decimal rendering of `n < 100`, the digit pair
shared by both `violation_time` encodings. -/
def pad2 (n : Nat) : List Char := [digitChar (n / 10), digitChar (n % 10)]

/-- The legacy no-separator time encoding `"HHmmX"`. -/
def encNoSep (hrs mins : Nat) (mer : Char) : String :=
  String.mk (pad2 hrs ++ pad2 mins ++ [mer])

/-- The colon time encoding `"HH:mmX"` of the same moment. -/
def encColon (hrs mins : Nat) (mer : Char) : String :=
  String.mk (pad2 hrs ++ ':' :: pad2 mins ++ [mer])

end NYCParking

namespace NYCParking

/-! ### General helper lemmas -/

theorem mem_finalize_clean_rows {c : Cleaner} {r : Row} :
    r ∈ (finalize_cleaning c).clean_rows ↔ r ∈ c.rows ∧ criticalsOk r = true := by
  simp [finalize_cleaning, List.mem_filter]

theorem criticalsOk_iff {r : Row} :
    criticalsOk r = true ↔
      r.summons_number ≠ none ∧ r.issue_date ≠ none ∧ r.county ≠ none := by
  simp [criticalsOk, Option.isSome_iff_ne_none, and_assoc]

/-! ### C1 -/

/-- C1: in the finalized table produced by `finalize_cleaning`, none of
`summons_number`, `issue_date`, `county` is null, and every working-table
row with a null in any of these — whichever earlier stage left it null —
is removed. -/
theorem c1_critical_fields (c : Cleaner) (r : Row) :
    (r ∈ (finalize_cleaning c).clean_rows →
      r.summons_number ≠ none ∧ r.issue_date ≠ none ∧ r.county ≠ none) ∧
    ((r.summons_number = none ∨ r.issue_date = none ∨ r.county = none) →
      r ∉ (finalize_cleaning c).clean_rows) := by
  constructor
  · intro hmem
    exact criticalsOk_iff.mp (mem_finalize_clean_rows.mp hmem).2
  · intro hnull hmem
    have hok := criticalsOk_iff.mp (mem_finalize_clean_rows.mp hmem).2
    rcases hnull with h | h | h
    · exact hok.1 h
    · exact hok.2.1 h
    · exact hok.2.2 h

/-! ### C2 -/

/-- C2: the first half of the claim holds on this row — `plate_masked`
is the fixed `"***"` prefix followed by the last three characters of the
plate — but the second half fails: the finalized table (which
`save_cleaned_data` persists column-for-column) still carries the
unmasked `plate` value, because no stage ever drops that column. -/
theorem c2_plate_exposed :
    (run_full_pipeline [exGood] true).map
        (fun c => c.clean_rows.map (fun r => (r.plate, r.plate_masked))) =
      .ok [(some "ABC1234", some "***234")] := by
  rfl

/-! ### C4 -/

/-- Helper: with the `violation_time` column present, `clean_dates`
succeeds and keeps exactly the rows whose `issue_date` parses — time
values never affect the row count. -/
theorem clean_dates_ok_rows (c : Cleaner) (h : c.hasViolationTime = true) :
    ∃ d, clean_dates c = .ok d ∧
      d.rows.length =
        c.rows.countP (fun r => (parseIsoDate r.issue_date_raw).isSome) := by
  simp only [clean_dates, h, if_true]
  refine ⟨_, rfl, ?_⟩
  simp only [List.length_map]
  set M : List Row :=
    c.rows.map (fun r => { r with issue_date := parseIsoDate r.issue_date_raw }) with hM
  have hkeep : (M.filter (fun r => !r.issue_date.isNone)).length =
      c.rows.countP (fun r => (parseIsoDate r.issue_date_raw).isSome) := by
    rw [hM, ← List.countP_eq_length_filter, List.countP_map]
    exact List.countP_congr (fun r _ => by
      simp [Function.comp, Option.bnot_isNone])
  by_cases hc : 0 < (M.filter (fun r => r.issue_date.isNone)).length
  · rw [if_pos hc]
    exact hkeep
  · rw [if_neg hc]
    have h0 : (M.filter (fun r => r.issue_date.isNone)).length = 0 :=
      Nat.le_zero.mp (Nat.not_lt.mp hc)
    have hsplit :=
      List.length_eq_length_filter_add (l := M) (fun r => r.issue_date.isNone)
    rw [h0, Nat.zero_add] at hsplit
    calc M.length = (M.filter (fun r => !r.issue_date.isNone)).length := hsplit
    _ = c.rows.countP (fun r => (parseIsoDate r.issue_date_raw).isSome) := hkeep

/-- C4 counterexample: `"2575"` would parse to hour 25 (outside
[0,23]) and minute 75 (outside [0,59]), yet the normalizer does not
null the derived fields: it produces `"25:75"`, hour 25 and
`time_of_day = "Night"` instead of the claimed `None`/`None`/`Unknown`. -/
theorem c4_counterexample :
    parse_time (some "2575") = some "25:75" ∧
    violation_hour_of (parse_time (some "2575")) = some 25 ∧
    categorize_time (violation_hour_of (parse_time (some "2575"))) = "Night" := by
  refine ⟨by decide, by decide, by decide⟩

/-- C4 amended: only a parse that raises (malformed or non-numeric
content) yields `violation_time_parsed = None`, `violation_hour = None`
and `time_of_day = 'Unknown'`; hour/minute ranges are not validated and
out-of-range values pass through.  In either case the row is not
removed: `clean_dates` keeps exactly the rows with parseable dates,
irrespective of every `violation_time` value. -/
theorem c4_amended (s : String) (c : Cleaner)
    (hp : parse_time (some s) = none) (hv : c.hasViolationTime = true) :
    violation_hour_of (parse_time (some s)) = none ∧
    categorize_time (violation_hour_of (parse_time (some s))) = "Unknown" ∧
    ∃ d, clean_dates c = .ok d ∧
      d.rows.length =
        c.rows.countP (fun r => (parseIsoDate r.issue_date_raw).isSome) := by
  refine ⟨?_, ?_, clean_dates_ok_rows c hv⟩
  · rw [hp]
    rfl
  · rw [hp]
    rfl

/-- C4 witness: at the malformed time `"AB:CD"`, the derived fields are
`None`/`None`/`Unknown` and the one-row table keeps its row. -/
theorem c4_amended_witness :
    violation_hour_of (parse_time (some "AB:CD")) = none ∧
    categorize_time (violation_hour_of (parse_time (some "AB:CD"))) = "Unknown" ∧
    ∃ d, clean_dates { rows := [exGood] } = .ok d ∧
      d.rows.length =
        ([exGood] : List Row).countP
          (fun r => (parseIsoDate r.issue_date_raw).isSome) :=
  c4_amended "AB:CD" { rows := [exGood] } (by decide) (by decide)

/-! ### Pipeline accounting helpers (C3, C8) -/

theorem dedupFirst_length_le (seen : List (Option String)) (l : List Row) :
    (dedupFirst seen l).length ≤ l.length := by
  induction l generalizing seen with
  | nil => simp [dedupFirst]
  | cons r rest ih =>
    by_cases hmem : r.summons_number ∈ seen
    · simp only [dedupFirst, if_pos hmem]
      exact Nat.le_succ_of_le (ih seen)
    · simp only [dedupFirst, if_neg hmem, List.length_cons]
      exact Nat.succ_le_succ (ih _)

/-- `clean_dates` bookkeeping for a cleaner fresh from `load_data`. -/
theorem clean_dates_accounting (c : Cleaner) (h : c.hasViolationTime = true)
    (h0 : c.report.invalid_dates_removed = 0) :
    ∃ d, clean_dates c = .ok d ∧
      d.removed_rows = c.removed_rows ∧
      d.clean_rows = c.clean_rows ∧
      d.report.initial_records = c.report.initial_records ∧
      d.report.duplicates_removed = c.report.duplicates_removed ∧
      d.report.final_records = c.report.final_records ∧
      d.rows.length + d.report.invalid_dates_removed = c.rows.length := by
  simp only [clean_dates, h, if_true]
  set M : List Row :=
    c.rows.map (fun r => { r with issue_date := parseIsoDate r.issue_date_raw }) with hM
  have hMlen : M.length = c.rows.length := by rw [hM, List.length_map]
  set n := (M.filter (fun r => r.issue_date.isNone)).length with hn
  have hsplit := List.length_eq_length_filter_add (l := M) (fun r => r.issue_date.isNone)
  by_cases hc : n > 0
  · rw [if_pos hc, if_pos hc]
    refine ⟨_, rfl, rfl, rfl, rfl, rfl, rfl, ?_⟩
    simp only [List.length_map]
    omega
  · rw [if_neg hc, if_neg hc]
    refine ⟨_, rfl, rfl, rfl, rfl, rfl, rfl, ?_⟩
    simp only [List.length_map, h0]
    omega

/-- `remove_duplicates` bookkeeping for a run with a fresh report. -/
theorem remove_duplicates_accounting (c : Cleaner)
    (h0 : c.report.duplicates_removed = 0) :
    (remove_duplicates c).rows.length +
        (remove_duplicates c).report.duplicates_removed = c.rows.length ∧
    (remove_duplicates c).report.initial_records = c.report.initial_records ∧
    (remove_duplicates c).report.invalid_dates_removed =
      c.report.invalid_dates_removed ∧
    (remove_duplicates c).removed_rows = c.removed_rows ∧
    (remove_duplicates c).clean_rows = c.clean_rows := by
  have hle := dedupFirst_length_le [] c.rows
  by_cases hc : c.rows.length - (dedupFirst [] c.rows).length > 0
  · have he : remove_duplicates c =
        { c with rows := dedupFirst [] c.rows,
                 report := { c.report with
                   duplicates_removed :=
                     c.rows.length - (dedupFirst [] c.rows).length } } := by
      simp only [remove_duplicates, if_pos hc]
    rw [he]
    refine ⟨?_, rfl, rfl, rfl, rfl⟩
    dsimp only
    omega
  · have he : remove_duplicates c = { c with rows := dedupFirst [] c.rows } := by
      simp only [remove_duplicates, if_neg hc]
    rw [he]
    refine ⟨?_, rfl, rfl, rfl, rfl⟩
    dsimp only
    omega

/-- `finalize_cleaning` bookkeeping. -/
theorem finalize_accounting (c : Cleaner) :
    (finalize_cleaning c).rows = c.rows ∧
    (finalize_cleaning c).clean_rows.length +
        (finalize_cleaning c).removed_rows.length =
      c.rows.length + c.removed_rows.length ∧
    (finalize_cleaning c).report.final_records =
      (finalize_cleaning c).clean_rows.length ∧
    (finalize_cleaning c).report.initial_records = c.report.initial_records ∧
    (finalize_cleaning c).report.duplicates_removed =
      c.report.duplicates_removed ∧
    (finalize_cleaning c).report.invalid_dates_removed =
      c.report.invalid_dates_removed ∧
    ∀ e ∈ (finalize_cleaning c).removed_rows,
      e ∈ c.removed_rows ∨ e.step = "finalize_cleaning" := by
  have hsplit := List.length_eq_length_filter_add (l := c.rows) criticalsOk
  refine ⟨rfl, ?_, rfl, rfl, rfl, rfl, ?_⟩
  · simp only [finalize_cleaning, List.length_append, List.length_map]
    omega
  · intro e he
    simp only [finalize_cleaning, List.mem_append, List.mem_map] at he
    rcases he with he | ⟨r, _, rfl⟩
    · exact Or.inl he
    · exact Or.inr rfl

/-- End-to-end accounting of a successful pipeline run: only the
finalizer writes the removal log, whose length is exactly the number of
rows it dropped, and row counts reconcile across stages. -/
theorem pipeline_accounting (input : List Row) (c : Cleaner)
    (h : run_full_pipeline input true = .ok c) :
    (∀ e ∈ c.removed_rows, e.step = "finalize_cleaning") ∧
    c.clean_rows.length + c.removed_rows.length = c.rows.length ∧
    c.report.final_records = c.clean_rows.length ∧
    c.report.initial_records = input.length ∧
    c.rows.length + c.report.duplicates_removed +
        c.report.invalid_dates_removed = input.length := by
  obtain ⟨d, hd, hrem, hclean, hinit, hdup, _hfin, hrows⟩ :=
    clean_dates_accounting (load_data input true) rfl rfl
  rw [run_full_pipeline] at h
  rw [hd] at h
  simp only [Except.bind] at h
  injection h with h
  subst h
  set B : Cleaner :=
    create_derived_features
      (remove_duplicates (clean_numeric_fields (clean_categorical_fields d))) with hB
  obtain ⟨hdd1, hdd2, hdd3, hdd4, hdd5⟩ :=
    remove_duplicates_accounting (clean_numeric_fields (clean_categorical_fields d))
      (by simpa using hdup)
  obtain ⟨hf1, hf2, hf3, hf4, hf5, hf6, hf7⟩ := finalize_accounting B
  have hBrem : B.removed_rows = [] := by
    rw [hB]
    show (remove_duplicates (clean_numeric_fields (clean_categorical_fields d))).removed_rows = []
    rw [hdd4]
    show d.removed_rows = []
    rw [hrem]
    rfl
  have hBrows : B.rows.length +
      B.report.duplicates_removed + B.report.invalid_dates_removed = input.length := by
    have h1 : B.rows.length =
        (remove_duplicates (clean_numeric_fields (clean_categorical_fields d))).rows.length := by
      rw [hB]
      simp [create_derived_features]
    have h2 : (clean_numeric_fields (clean_categorical_fields d)).rows.length =
        d.rows.length := by
      simp [clean_numeric_fields, clean_categorical_fields]
    have h3 : B.report =
        (remove_duplicates (clean_numeric_fields (clean_categorical_fields d))).report := by
      rw [hB]; rfl
    have h4 : (clean_numeric_fields (clean_categorical_fields d)).report = d.report := rfl
    have h5 : d.rows.length + d.report.invalid_dates_removed = input.length := by
      have : (load_data input true).rows.length = input.length := by
        simp [load_data]
      omega
    rw [h3]
    rw [h4] at hdd2 hdd3
    rw [h2] at hdd1
    omega
  have hBinit : B.report.initial_records = input.length := by
    have h3 : B.report =
        (remove_duplicates (clean_numeric_fields (clean_categorical_fields d))).report := by
      rw [hB]; rfl
    have h4 : (clean_numeric_fields (clean_categorical_fields d)).report = d.report := rfl
    have h5 : (load_data input true).report.initial_records = input.length := by
      simp [load_data]
    rw [h3, hdd2, h4, hinit, h5]
  refine ⟨?_, ?_, hf3, ?_, ?_⟩
  · intro e he
    rcases hf7 e he with hmem | hstep
    · rw [hBrem] at hmem
      cases hmem
    · exact hstep
  · rw [hf1]
    have := hf2
    rw [hBrem] at this
    simpa using this
  · rw [hf4, hBinit]
  · rw [hf1]
    have hfr1 : (finalize_cleaning B).report.duplicates_removed =
        B.report.duplicates_removed := hf5
    have hfr2 : (finalize_cleaning B).report.invalid_dates_removed =
        B.report.invalid_dates_removed := hf6
    rw [hfr1, hfr2]
    exact hBrows

/-! ### C3 -/

/-- C3 counterexample: on a concrete run where the Deduplicator drops one
row (`duplicates_removed = 1`), the removed-row log stays empty — the
dropped duplicate produces no entry with reason "duplicate
summons_number", and the log length (0) differs from the total rows
removed (1). -/
theorem c3_counterexample :
    (run_full_pipeline [exGood, exDup] true).map
        (fun c => (c.report.duplicates_removed, c.removed_rows)) =
      .ok (1, []) := by
  rfl

/-- C3 amended: only the Finalizer writes removed-row log entries; rows
dropped by the Date/Time Normalizer and the Deduplicator are tracked
solely as counters (`invalid_dates_removed`, `duplicates_removed`).
Hence every log entry has step `finalize_cleaning`, the log length
equals the finalize-stage removals (working-table rows minus finalized
rows), and full reconciliation needs the counters, not the log. -/
theorem c3_amended (input : List Row) (c : Cleaner)
    (h : run_full_pipeline input true = .ok c) :
    (∀ e ∈ c.removed_rows, e.step = "finalize_cleaning") ∧
    c.removed_rows.length + c.clean_rows.length = c.rows.length ∧
    c.removed_rows.length + c.clean_rows.length + c.report.duplicates_removed +
        c.report.invalid_dates_removed = c.report.initial_records := by
  obtain ⟨h1, h2, h3, h4, h5⟩ := pipeline_accounting input c h
  exact ⟨h1, by omega, by omega⟩

/-- C3 witness: the amended bookkeeping at the concrete duplicate-pair
run. -/
theorem c3_amended_witness :
    (runOutput [exGood, exDup]).removed_rows.length +
        (runOutput [exGood, exDup]).clean_rows.length =
      (runOutput [exGood, exDup]).rows.length ∧
    (runOutput [exGood, exDup]).removed_rows.length +
        (runOutput [exGood, exDup]).clean_rows.length +
        (runOutput [exGood, exDup]).report.duplicates_removed +
        (runOutput [exGood, exDup]).report.invalid_dates_removed =
      (runOutput [exGood, exDup]).report.initial_records :=
  ⟨(c3_amended [exGood, exDup] (runOutput [exGood, exDup]) (by rfl)).2.1,
   (c3_amended [exGood, exDup] (runOutput [exGood, exDup]) (by rfl)).2.2⟩

/-! ### C8 -/

/-- C8: after a complete run,
`final_records + (duplicates_removed + invalid_dates_removed +
finalize_stage_removed) = initial_records`, where the finalize-stage
removals are the log entries bearing the finalizer's step (the log
records exactly the critical-field drops). -/
theorem c8_retention (input : List Row) (c : Cleaner)
    (h : run_full_pipeline input true = .ok c) :
    c.report.final_records +
        (c.report.duplicates_removed + c.report.invalid_dates_removed +
          (c.removed_rows.filter (fun e => e.step == "finalize_cleaning")).length) =
      c.report.initial_records := by
  obtain ⟨h1, h2, h3, h4, h5⟩ := pipeline_accounting input c h
  have hall : c.removed_rows.filter (fun e => e.step == "finalize_cleaning") =
      c.removed_rows :=
    List.filter_eq_self.mpr (fun e he => by simpa using h1 e he)
  rw [hall]
  omega

/-- C8 witness: the retention arithmetic at a concrete four-row run with
one duplicate, one invalid date and one missing-county row:
1 + (1 + 1 + 1) = 4. -/
theorem c8_retention_witness :
    (runOutput [exGood, exDup, exBadDate, exNoCounty]).report.final_records +
        ((runOutput [exGood, exDup, exBadDate, exNoCounty]).report.duplicates_removed +
          (runOutput [exGood, exDup, exBadDate, exNoCounty]).report.invalid_dates_removed +
          ((runOutput [exGood, exDup, exBadDate, exNoCounty]).removed_rows.filter
            (fun e => e.step == "finalize_cleaning")).length) =
      (runOutput [exGood, exDup, exBadDate, exNoCounty]).report.initial_records :=
  c8_retention [exGood, exDup, exBadDate, exNoCounty]
    (runOutput [exGood, exDup, exBadDate, exNoCounty]) (by rfl)

/-! ### C7 -/

/-- Keys already seen never reappear after `dedupFirst`, and each unseen
key survives at most once. -/
theorem dedupFirst_countP_le (k : Option String) (l : List Row) :
    ∀ seen : List (Option String),
      (dedupFirst seen l).countP (fun x => decide (x.summons_number = k)) ≤
        (if k ∈ seen then 0 else 1) := by
  induction l with
  | nil =>
    intro seen
    simp [dedupFirst]
  | cons r rest ih =>
    intro seen
    by_cases hmem : r.summons_number ∈ seen
    · simp only [dedupFirst, if_pos hmem]
      exact ih seen
    · simp only [dedupFirst, if_neg hmem, List.countP_cons]
      by_cases hk : r.summons_number = k
      · subst hk
        have h1 := ih (r.summons_number :: seen)
        rw [if_pos (List.mem_cons_self _ _)] at h1
        rw [if_neg hmem]
        have h0 : List.countP (fun x => decide (x.summons_number = r.summons_number))
            (dedupFirst (r.summons_number :: seen) rest) = 0 := Nat.le_zero.mp h1
        rw [h0]
        simp
      · have h1 := ih (r.summons_number :: seen)
        have hmem2 : (k ∈ r.summons_number :: seen) ↔ (k ∈ seen) := by
          constructor
          · intro h
            rcases List.mem_cons.mp h with he | hs
            · exact absurd he.symm hk
            · exact hs
          · exact fun hs => List.mem_cons_of_mem _ hs
        have hp : decide (r.summons_number = k) = false := by
          simp [hk]
        rw [hp]
        have hz : (if (false = true) then 1 else 0) = 0 := by simp
        rw [hz, Nat.add_zero]
        by_cases hks : k ∈ seen
        · rw [if_pos hks]
          rw [if_pos (hmem2.mpr hks)] at h1
          exact h1
        · rw [if_neg hks]
          rw [if_neg (fun hcon => hks (hmem2.mp hcon))] at h1
          exact h1

/-- Every survivor of `dedupFirst` is the first input row bearing its
key (and its key was unseen). -/
theorem dedupFirst_find_first (l : List Row) :
    ∀ (seen : List (Option String)) (r : Row), r ∈ dedupFirst seen l →
      r.summons_number ∉ seen ∧
      l.find? (fun x => decide (x.summons_number = r.summons_number)) = some r := by
  induction l with
  | nil =>
    intro seen r hr
    simp [dedupFirst] at hr
  | cons x rest ih =>
    intro seen r hr
    by_cases hmem : x.summons_number ∈ seen
    · rw [dedupFirst, if_pos hmem] at hr
      obtain ⟨h1, h2⟩ := ih seen r hr
      refine ⟨h1, ?_⟩
      rw [List.find?_cons_of_neg _ ?_]
      · exact h2
      · simp only [decide_eq_true_eq]
        intro hx
        exact h1 (hx ▸ hmem)
    · rw [dedupFirst, if_neg hmem] at hr
      rcases List.mem_cons.mp hr with rfl | hr2
      · refine ⟨hmem, ?_⟩
        rw [List.find?_cons_of_pos _ (by simp)]
      · obtain ⟨h1, h2⟩ := ih _ r hr2
        have hne : r.summons_number ≠ x.summons_number := fun he =>
          h1 (by rw [he]; exact List.mem_cons_self _ _)
        refine ⟨fun hs => h1 (List.mem_cons_of_mem _ hs), ?_⟩
        rw [List.find?_cons_of_neg _ ?_]
        · exact h2
        · simp only [decide_eq_true_eq]
          intro hx
          exact hne hx.symm

/-- Deriving features and finalizing cannot increase the number of rows
bearing a given `summons_number`. -/
theorem finalize_derived_countP_le (c2 : Cleaner) (k : Option String)
    (hle : c2.rows.countP (fun x => decide (x.summons_number = k)) ≤ 1) :
    (finalize_cleaning (create_derived_features c2)).clean_rows.countP
      (fun x => decide (x.summons_number = k)) ≤ 1 := by
  have heq : (finalize_cleaning (create_derived_features c2)).clean_rows =
      (create_derived_features c2).rows.filter criticalsOk := rfl
  have h1 : (finalize_cleaning (create_derived_features c2)).clean_rows.countP
      (fun x => decide (x.summons_number = k)) ≤
      (create_derived_features c2).rows.countP
        (fun x => decide (x.summons_number = k)) := by
    rw [heq, List.countP_filter]
    exact List.countP_mono_left (fun x _ hx => by
      simp only [Bool.and_eq_true] at hx
      exact hx.1)
  have h2 : (create_derived_features c2).rows.countP
      (fun x => decide (x.summons_number = k)) =
      c2.rows.countP (fun x => decide (x.summons_number = k)) := by
    show (c2.rows.map _).countP _ = _
    rw [List.countP_map]
    exact List.countP_congr (fun x _ => Iff.rfl)
  omega

/-- C7: after the Deduplicator, each `summons_number` value occurs in at
most one row (so any value present in the finalized output occurs in
exactly one of its rows); the retained row for each key is the first row
of the incoming table bearing that key — kept whole, with no merging of
field values; and the uniqueness persists through feature derivation and
finalization. -/
theorem c7_dedup_first_wins (c : Cleaner) (k : Option String) (r : Row)
    (hr : r ∈ (remove_duplicates c).rows) :
    (remove_duplicates c).rows.countP
        (fun x => decide (x.summons_number = k)) ≤ 1 ∧
    c.rows.find? (fun x => decide (x.summons_number = r.summons_number)) =
      some r ∧
    (finalize_cleaning (create_derived_features (remove_duplicates c))).clean_rows.countP
        (fun x => decide (x.summons_number = k)) ≤ 1 := by
  have hrows : (remove_duplicates c).rows = dedupFirst [] c.rows := rfl
  have hcount : (remove_duplicates c).rows.countP
      (fun x => decide (x.summons_number = k)) ≤ 1 := by
    rw [hrows]
    simpa using dedupFirst_countP_le k c.rows []
  refine ⟨hcount, ?_, finalize_derived_countP_le _ k hcount⟩
  rw [hrows] at hr
  exact (dedupFirst_find_first c.rows [] r hr).2

/-- C7 witness: in the concrete table `[exGood, exDup, exBadDate]`
(`exDup` repeats `exGood`'s summons number), the survivor `exGood` is
the first occurrence and summons `"1"` occurs at most once after
deduplication and finalization. -/
theorem c7_dedup_first_wins_witness :
    (remove_duplicates exDupCleaner).rows.countP
        (fun x => decide (x.summons_number = some "1")) ≤ 1 ∧
    exDupCleaner.rows.find?
        (fun x => decide (x.summons_number = exGood.summons_number)) =
      some exGood ∧
    (finalize_cleaning
        (create_derived_features (remove_duplicates exDupCleaner))).clean_rows.countP
        (fun x => decide (x.summons_number = some "1")) ≤ 1 :=
  c7_dedup_first_wins exDupCleaner (some "1") exGood (by decide)

/-! ### C9 -/

/-- C9 counterexample: on a concrete one-row table whose
`violation_time` column is absent, the pipeline errors (KeyError escapes
`clean_dates`) instead of degrading the derived time columns. -/
theorem c9_counterexample :
    run_full_pipeline [exGood] false = .error "KeyError: violation_time" := by
  rfl

/-- C9 amended: when the `violation_time` column is absent the pipeline
does not degrade gracefully — `clean_dates` raises `KeyError` on the
column access and the whole run aborts with that error. -/
theorem c9_amended (input : List Row) :
    run_full_pipeline input false = .error "KeyError: violation_time" := by
  simp only [run_full_pipeline, clean_dates, load_data]
  rfl

/-! ### C10 -/

/-- C10: a row whose raw `fine_amount` fails numeric coercion keeps
flag `'normal'` (there is no missing-value flag category), gets a
missing `fine_amount`, and is retained — the Numeric Normalizer never
changes the row count. -/
theorem c10_unparseable_fine (c : Cleaner) (r : Row) (hr : r ∈ c.rows)
    (hfail : pyToNumeric r.fine_amount_raw = none) :
    (clean_numeric_fields c).rows.length = c.rows.length ∧
    ∃ s ∈ (clean_numeric_fields c).rows,
      s.idx = r.idx ∧ s.summons_number = r.summons_number ∧
      s.fine_amount = none ∧ s.fine_amount_flag = "normal" ∧ s.net_fine = none := by
  constructor
  · simp [clean_numeric_fields]
  · refine ⟨_, List.mem_map_of_mem _ hr, rfl, rfl, ?_, ?_, ?_⟩ <;>
      simp [hfail, fine_flag]

/-- C10 witness: the concrete row with `fine_amount = "abc"` is kept
with a missing fine and flag `'normal'`. -/
theorem c10_unparseable_fine_witness :
    (clean_numeric_fields { rows := [exNoCounty] }).rows.length = 1 ∧
    ∃ s ∈ (clean_numeric_fields { rows := [exNoCounty] }).rows,
      s.idx = exNoCounty.idx ∧ s.summons_number = exNoCounty.summons_number ∧
      s.fine_amount = none ∧ s.fine_amount_flag = "normal" ∧ s.net_fine = none :=
  c10_unparseable_fine { rows := [exNoCounty] } exNoCounty (by decide) (by decide)

/-- C1 witness: on a concrete two-row table, the row with a null county
is dropped by the finalizer, and membership in the finalized table
guarantees all three critical fields of the surviving row. -/
theorem c1_critical_fields_witness :
    exFinalBad ∉ (finalize_cleaning exFinalCleaner).clean_rows ∧
    (exFinalGood ∈ (finalize_cleaning exFinalCleaner).clean_rows →
      exFinalGood.summons_number ≠ none ∧ exFinalGood.issue_date ≠ none ∧
      exFinalGood.county ≠ none) :=
  ⟨(c1_critical_fields exFinalCleaner exFinalBad).2 (Or.inr (Or.inr rfl)),
   (c1_critical_fields exFinalCleaner exFinalGood).1⟩

/-! ### C6 helper lemmas -/

theorem digitChar_isDigit {d : Nat} (h : d < 10) : (digitChar d).isDigit = true := by
  interval_cases d <;> decide

theorem digitChar_not_space {d : Nat} (h : d < 10) :
    isSpaceChar (digitChar d) = false := by
  interval_cases d <;> decide

theorem digitChar_ne_colon {d : Nat} (h : d < 10) : digitChar d ≠ ':' := by
  interval_cases d <;> decide

theorem digitChar_ne_minus {d : Nat} (h : d < 10) : digitChar d ≠ '-' := by
  interval_cases d <;> decide

theorem digitChar_ne_plus {d : Nat} (h : d < 10) : digitChar d ≠ '+' := by
  interval_cases d <;> decide

theorem digitVal_digitChar {d : Nat} (h : d < 10) : digitVal (digitChar d) = d := by
  interval_cases d <;> decide

theorem div10_lt {n : Nat} (h : n < 100) : n / 10 < 10 :=
  Nat.div_lt_of_lt_mul h

theorem mod10_lt (n : Nat) : n % 10 < 10 :=
  Nat.mod_lt _ (by norm_num)

theorem pad2_no_space {n : Nat} (h : n < 100) :
    ∀ c ∈ pad2 n, isSpaceChar c = false := by
  intro c hc
  rcases List.mem_pair.mp (by simpa [pad2] using hc) with rfl | rfl
  · exact digitChar_not_space (div10_lt h)
  · exact digitChar_not_space (mod10_lt n)

theorem pad2_digits {n : Nat} (h : n < 100) :
    ∀ c ∈ pad2 n, c.isDigit = true := by
  intro c hc
  rcases List.mem_pair.mp (by simpa [pad2] using hc) with rfl | rfl
  · exact digitChar_isDigit (div10_lt h)
  · exact digitChar_isDigit (mod10_lt n)

theorem colon_not_mem_pad2 {n : Nat} (h : n < 100) : ':' ∉ pad2 n := by
  intro hc
  rcases List.mem_pair.mp (by simpa [pad2] using hc) with he | he
  · exact digitChar_ne_colon (div10_lt h) he.symm
  · exact digitChar_ne_colon (mod10_lt n) he.symm

theorem pyStrip_eq_self {l : List Char} (h : ∀ c ∈ l, isSpaceChar c = false) :
    pyStrip l = l := by
  have h1 : stripLeft l.reverse = l.reverse := by
    unfold stripLeft
    cases hrev : l.reverse with
    | nil => rfl
    | cons a t =>
      have ha : a ∈ l := by
        have : a ∈ l.reverse := by
          rw [hrev]
          exact List.mem_cons_self _ _
        simpa using this
      rw [List.dropWhile_cons, h a ha]
      simp
  unfold pyStrip
  rw [h1, List.reverse_reverse]
  unfold stripLeft
  cases l with
  | nil => rfl
  | cons a t =>
    rw [List.dropWhile_cons, h a (List.mem_cons_self _ _)]
    simp

theorem pyIntNat_pad2 {n : Nat} (h : n < 100) : pyIntNat (pad2 n) = some n := by
  have hval : digitsToNat (pad2 n) = n := by
    unfold digitsToNat pad2
    simp only [List.foldl_cons, List.foldl_nil]
    rw [digitVal_digitChar (div10_lt h), digitVal_digitChar (mod10_lt n)]
    omega
  unfold pyIntNat
  rw [if_pos ⟨by simp [pad2], List.all_eq_true.mpr (pad2_digits h)⟩, hval]

theorem pyInt_pad2 {n : Nat} (h : n < 100) : pyInt (pad2 n) = some (n : Int) := by
  have hN : pyIntNat (pad2 n) = some n := pyIntNat_pad2 h
  unfold pyInt
  rw [pyStrip_eq_self (pad2_no_space h)]
  simp only [pad2] at hN ⊢
  rw [if_neg (digitChar_ne_minus (div10_lt h)),
      if_neg (digitChar_ne_plus (div10_lt h)), hN]
  rfl

theorem splitOnChar_of_not_mem {sep : Char} {l : List Char} (h : sep ∉ l) :
    splitOnChar sep l = [l] := by
  induction l with
  | nil => rfl
  | cons c rest ih =>
    have hc : ¬(c = sep) := fun he => h (by rw [he]; exact List.mem_cons_self _ _)
    have hr : sep ∉ rest := fun hs => h (List.mem_cons_of_mem _ hs)
    simp only [splitOnChar, if_neg hc, ih hr]

theorem splitOnChar_append {sep : Char} {xs ys : List Char} (h : sep ∉ xs) :
    splitOnChar sep (xs ++ sep :: ys) = xs :: splitOnChar sep ys := by
  induction xs with
  | nil => simp [splitOnChar]
  | cons x rest ih =>
    have hx : ¬(x = sep) := fun he => h (by rw [he]; exact List.mem_cons_self _ _)
    have hr : sep ∉ rest := fun hs => h (List.mem_cons_of_mem _ hs)
    rw [List.cons_append]
    simp only [splitOnChar, if_neg hx, ih hr]

theorem splitMeridiem_concat {xs : List Char} {mer : Char}
    (hmer : mer = 'A' ∨ mer = 'P') :
    splitMeridiem (xs ++ [mer]) = some (some mer.toUpper, xs) := by
  unfold splitMeridiem
  rw [List.getLast?_concat]
  rcases hmer with rfl | rfl <;>
    simp [List.dropLast_concat]

theorem zfill4_of_length {l : List Char} (h : l.length = 4) : zfill 4 l = l := by
  unfold zfill
  rw [h]
  simp

theorem readHM_noSep {hrs mins : Nat} (hh : hrs < 100) (hm : mins < 100) :
    readHoursMinutes (pad2 hrs ++ pad2 mins) = some ((hrs : Int), (mins : Int)) := by
  have hnc : ¬(':' ∈ pad2 hrs ++ pad2 mins) := by
    intro hc
    rcases List.mem_append.mp hc with hc1 | hc2
    · exact colon_not_mem_pad2 hh hc1
    · exact colon_not_mem_pad2 hm hc2
  have ht : (pad2 hrs ++ pad2 mins).take 2 = pad2 hrs := by
    rw [show (2 : Nat) = (pad2 hrs).length from by simp [pad2], List.take_left]
  have hd : ((pad2 hrs ++ pad2 mins).drop 2).take 2 = pad2 mins := by
    rw [show (2 : Nat) = (pad2 hrs).length from by simp [pad2], List.drop_left]
    rw [show (pad2 hrs).length = (pad2 mins).length from by simp [pad2],
        List.take_length]
  unfold readHoursMinutes
  rw [if_neg hnc]
  show (do
    let h ← pyInt ((zfill 4 (pad2 hrs ++ pad2 mins)).take 2)
    let m ← pyInt (((zfill 4 (pad2 hrs ++ pad2 mins)).drop 2).take 2)
    some (h, m) : Option (Int × Int)) = some ((hrs : Int), (mins : Int))
  rw [zfill4_of_length (by simp [pad2]), ht, hd, pyInt_pad2 hh, pyInt_pad2 hm]
  rfl

theorem readHM_colon {hrs mins : Nat} (hh : hrs < 100) (hm : mins < 100) :
    readHoursMinutes (pad2 hrs ++ ':' :: pad2 mins) =
      some ((hrs : Int), (mins : Int)) := by
  unfold readHoursMinutes
  rw [if_pos (List.mem_append_right _ (List.mem_cons_self _ _))]
  rw [splitOnChar_append (colon_not_mem_pad2 hh),
      splitOnChar_of_not_mem (colon_not_mem_pad2 hm)]
  show (pyInt (pad2 hrs)).bind
      (fun h => (pyInt (pad2 mins)).bind (fun m => some (h, m))) =
    some ((hrs : Int), (mins : Int))
  rw [pyInt_pad2 hh, pyInt_pad2 hm]
  rfl

/-- Both encodings of the same `(hours, minutes, meridiem)` parse to the
same canonical result. -/
theorem parseTimeCore_encodings {hrs mins : Nat} {mer : Char}
    (hh : hrs < 100) (hm : mins < 100) (hmer : mer = 'A' ∨ mer = 'P') :
    parseTimeCore (pad2 hrs ++ pad2 mins ++ [mer]) =
      parseTimeCore (pad2 hrs ++ ':' :: pad2 mins ++ [mer]) := by
  have hns1 : ∀ c ∈ pad2 hrs ++ pad2 mins ++ [mer], isSpaceChar c = false := by
    intro c hc
    rcases List.mem_append.mp hc with hc1 | hc2
    · rcases List.mem_append.mp hc1 with h1 | h2
      · exact pad2_no_space hh c h1
      · exact pad2_no_space hm c h2
    · rw [List.mem_singleton.mp hc2]
      rcases hmer with rfl | rfl <;> decide
  have hns2 : ∀ c ∈ pad2 hrs ++ ':' :: pad2 mins ++ [mer],
      isSpaceChar c = false := by
    intro c hc
    rcases List.mem_append.mp hc with hc1 | hc2
    · rcases List.mem_append.mp hc1 with h1 | h2
      · exact pad2_no_space hh c h1
      · rcases List.mem_cons.mp h2 with rfl | h3
        · decide
        · exact pad2_no_space hm c h3
    · rw [List.mem_singleton.mp hc2]
      rcases hmer with rfl | rfl <;> decide
  unfold parseTimeCore
  rw [pyStrip_eq_self hns1, pyStrip_eq_self hns2]
  show (do
      let (meridiem, time_digits) ← splitMeridiem (pad2 hrs ++ pad2 mins ++ [mer])
      let (hours, minutes) ← readHoursMinutes time_digits
      let hours := adjustMeridiem meridiem hours
      some (format02 hours ++ ':' :: format02 minutes) : Option (List Char)) =
    (do
      let (meridiem, time_digits) ←
        splitMeridiem (pad2 hrs ++ ':' :: pad2 mins ++ [mer])
      let (hours, minutes) ← readHoursMinutes time_digits
      let hours := adjustMeridiem meridiem hours
      some (format02 hours ++ ':' :: format02 minutes))
  rw [splitMeridiem_concat hmer, splitMeridiem_concat hmer]
  show (do
      let (hours, minutes) ← readHoursMinutes (pad2 hrs ++ pad2 mins)
      let hours := adjustMeridiem (some mer.toUpper) hours
      some (format02 hours ++ ':' :: format02 minutes) : Option (List Char)) =
    (do
      let (hours, minutes) ← readHoursMinutes (pad2 hrs ++ ':' :: pad2 mins)
      let hours := adjustMeridiem (some mer.toUpper) hours
      some (format02 hours ++ ':' :: format02 minutes))
  rw [readHM_noSep hh hm, readHM_colon hh hm]

/-! ### C6 -/

/-- C6: for every `(hours, minutes, meridiem)` combination representable
in both time encodings, the no-separator form `"HHmmX"` and the colon
form `"HH:mmX"` of the same moment yield identical
`violation_time_parsed`, `violation_hour` and `time_of_day`. -/
theorem c6_time_round_trip (hrs mins : Nat) (mer : Char)
    (hh : hrs < 100) (hm : mins < 100) (hmer : mer = 'A' ∨ mer = 'P') :
    parse_time (some (encNoSep hrs mins mer)) =
      parse_time (some (encColon hrs mins mer)) ∧
    violation_hour_of (parse_time (some (encNoSep hrs mins mer))) =
      violation_hour_of (parse_time (some (encColon hrs mins mer))) ∧
    categorize_time (violation_hour_of (parse_time (some (encNoSep hrs mins mer)))) =
      categorize_time (violation_hour_of (parse_time (some (encColon hrs mins mer)))) := by
  have hcore : parse_time (some (encNoSep hrs mins mer)) =
      parse_time (some (encColon hrs mins mer)) := by
    show (parseTimeCore (pad2 hrs ++ pad2 mins ++ [mer])).map String.mk =
      (parseTimeCore (pad2 hrs ++ ':' :: pad2 mins ++ [mer])).map String.mk
    rw [parseTimeCore_encodings hh hm hmer]
  exact ⟨hcore, by rw [hcore], by rw [hcore]⟩

/-- C6 witness: `"1045A"` and `"10:45A"` both parse to `"10:45"`, hour
10, `time_of_day = "Morning"`. -/
theorem c6_time_round_trip_witness :
    parse_time (some (encNoSep 10 45 'A')) =
      parse_time (some (encColon 10 45 'A')) ∧
    encNoSep 10 45 'A' = "1045A" ∧
    encColon 10 45 'A' = "10:45A" ∧
    parse_time (some (encNoSep 10 45 'A')) = some "10:45" ∧
    violation_hour_of (parse_time (some (encNoSep 10 45 'A'))) = some 10 ∧
    categorize_time (violation_hour_of (parse_time (some (encNoSep 10 45 'A')))) =
      "Morning" :=
  ⟨(c6_time_round_trip 10 45 'A' (by decide) (by decide) (Or.inl rfl)).1,
   by decide, by decide, by decide, by decide, by decide⟩

/-! ### C5 -/

/-- The dashboard cascade follows exactly the claimed resolution order
(the two write the rejection disjunction in a different order and group
the truncate-and-retry test differently, but agree on every value). -/
theorem cascade_eq_resolution (val : List Char) :
    clean_state_cascade val = state_resolution_order val := by
  unfold clean_state_cascade state_resolution_order
  have hcond : (pyIsDigit val = true ∨ val.length > 3 ∨ val.length = 0) ↔
      (pyIsDigit val = true ∨ val.length = 0 ∨ val.length > 3) := by
    tauto
  by_cases h1 : pyIsDigit val = true ∨ val.length > 3 ∨ val.length = 0
  · rw [if_pos h1, if_pos (hcond.mp h1)]
  · rw [if_neg h1, if_neg (fun hc => h1 (hcond.mpr hc))]
    by_cases h2 : dash_valid_states.contains (String.mk val) = true
    · rw [if_pos h2, if_pos h2]
    · rw [if_neg h2, if_neg h2]
      cases hlook : lookupMap dash_state_map (String.mk val) with
      | some m => rfl
      | none =>
        by_cases h3 : val.length = 3
        · rw [if_pos h3]
          by_cases h4 : dash_valid_states.contains (String.mk (val.take 2)) = true
          · rw [if_pos h4, if_pos ⟨h3, h4⟩]
          · rw [if_neg h4, if_neg (fun hc => h4 hc.2)]
        · rw [if_neg h3, if_neg (fun hc => h3 hc.1)]

/-- C5 counterexample: the pipeline's Categorical Normalizer leaves the
purely numeric state value `"99"` untouched instead of mapping it to
`UNKNOWN` as the claimed resolution order requires. -/
theorem c5_counterexample :
    (clean_categorical_fields exNumericState).rows.map (fun r => r.state) =
      [some "99"] := by
  rfl

/-- C5 amended: the claimed resolution order (numeric/empty/too-long →
`UNKNOWN`; valid-set membership; typo table; 3-character truncate-and-
retry; `UNKNOWN`) is implemented by the dashboard's `clean_state_field`
— applied to the stripped, uppercased value after also removing `US-` /
`USA-` prefixes — and not by the pipeline's Categorical Normalizer,
which only uppercases and trims `state` (deriving `is_ny_plate`) and
never introduces the `UNKNOWN` sentinel. -/
theorem c5_amended (s : String) (c : Cleaner) (r : Row) (hr : r ∈ c.rows) :
    clean_state (some s) = state_resolution_order (dashNormalize s) ∧
    ∃ t ∈ (clean_categorical_fields c).rows,
      t.idx = r.idx ∧ t.state = pipelineStateValue r.state ∧
      t.is_ny_plate = (pipelineStateValue r.state == some "NY") := by
  refine ⟨cascade_eq_resolution (dashNormalize s), ?_⟩
  exact ⟨_, List.mem_map_of_mem _ hr, rfl, rfl, rfl⟩

/-- C5 witness: at `"NYC"` the dashboard cascade agrees with the claimed
resolution order (truncate-and-retry gives `"NY"`), while the pipeline
stage only upper/trims the numeric-state row. -/
theorem c5_amended_witness :
    clean_state (some "NYC") = state_resolution_order (dashNormalize "NYC") ∧
    ∃ t ∈ (clean_categorical_fields exNumericState).rows,
      t.idx = ({ summons_number := some "9", state := some "99" : Row }).idx ∧
      t.state =
        pipelineStateValue ({ summons_number := some "9", state := some "99" : Row }).state ∧
      t.is_ny_plate =
        (pipelineStateValue
          ({ summons_number := some "9", state := some "99" : Row }).state == some "NY") :=
  c5_amended "NYC" exNumericState
    { summons_number := some "9", state := some "99" } (by decide)

end NYCParking

